import Mathlib

/-!
Verification development for the PK-Clearance-Predictor repository.

The repository's core logic (notebooks `02_eda.py` and
`03_feature_engineering.py`) is embedded shallowly:

* missing values (`NaN`) are modelled by `Option`; pandas' element-wise
  comparisons where `NaN` compares `False` are translated accordingly;
* float arithmetic is modelled over `ℚ` (all formulas in scope are
  field-arithmetic only; the one transcendental formula, the DuBois
  body-surface-area power, is passed in as an explicit function
  parameter, since no claim depends on its numeric value);
* the long→wide `pivot_table(aggfunc='first')` / outer-merge pipeline of
  `02_eda.py` is embedded over explicit record lists;
* the column-guarded feature-engineering script of
  `03_feature_engineering.py` (section 3, groups) is embedded as a
  transform in the `Except` monad, a `.error` modelling a raised
  pandas `KeyError` on a missing column.
-/

/-- Characterwise lowercasing, the embedding of pandas `.str.lower()`.
It is defined structurally over the character list (extensionally the
same function as `String.toLower`, i.e. `Char.toLower` on every
character) so that the kernel can evaluate it. -/
def strLower (s : String) : String :=
  ⟨s.data.map Char.toLower⟩

/-- Embedding of the female test `sex.str.lower().isin(['f', 'female', 'F'])`
from `calc_creatinine_clearance` and `calc_ideal_body_weight`
(`03_feature_engineering.py` lines 74 and 86).  On a missing value
(`NaN`), pandas `.str.lower()` yields `NaN` and `.isin` yields `False`,
hence the `none` case is `false`. -/
def isFemaleSex : Option String → Bool
  | some s => (["f", "female", "F"] : List String).contains (strLower s)
  | none => false

/-- Element-wise embedding of `calc_bmi` (`03_feature_engineering.py`
lines 57-63): `mask = (weight_kg > 0) & (height_cm > 0)` — a missing
operand makes the comparison `False` — and on the mask
`bmi = weight / (height/100)**2`, `NaN` elsewhere. -/
def calc_bmi (weight_kg height_cm : Option ℚ) : Option ℚ :=
  match weight_kg, height_cm with
  | some w, some h => if 0 < w ∧ 0 < h then some (w / (h / 100) ^ 2) else none
  | _, _ => none

/-- Element-wise embedding of `calc_creatinine_clearance`
(`03_feature_engineering.py` lines 66-76):
`crcl = ((140 - age) * weight_kg) / (72 * scr)` with the female rows
multiplied by `0.85`.  The Python default argument `scr=1.0` is made
explicit at call sites.  A missing `age` or `weight` propagates
(`NaN` arithmetic). -/
def calc_creatinine_clearance
    (age weight_kg : Option ℚ) (sex : Option String) (scr : ℚ) : Option ℚ :=
  match age, weight_kg with
  | some a, some w =>
      let crcl := ((140 - a) * w) / (72 * scr)
      if isFemaleSex sex then some (crcl * 0.85) else some crcl
  | _, _ => none

/-- Element-wise embedding of `calc_ideal_body_weight`
(`03_feature_engineering.py` lines 79-94): `height_in = height_cm / 2.54`;
rows with `height_cm` present get `45.5 + 2.3 * (height_in - 60)` when
classified female and `50 + 2.3 * (height_in - 60)` otherwise
(`is_male = ~is_female`, so a missing sex falls into the male branch);
rows with missing height stay `NaN`. -/
def calc_ideal_body_weight (height_cm : Option ℚ) (sex : Option String) : Option ℚ :=
  match height_cm with
  | some h =>
      let height_in := h / 2.54
      if isFemaleSex sex then some (45.5 + 2.3 * (height_in - 60))
      else some (50 + 2.3 * (height_in - 60))
  | none => none

/-- Recursive bin lookup underlying the embedding of
`pd.cut(x, bins, labels, right=False)`: successive bin edges give
left-closed right-open intervals, the i-th interval mapping to the i-th
label; a value in no interval maps to `NaN`. -/
def cutFind (a : ℚ) : List ℚ → List String → Option String
  | b1 :: b2 :: bs, lab :: labs =>
      if b1 ≤ a ∧ a < b2 then some lab else cutFind a (b2 :: bs) labs
  | _, _ => none

/-- Element-wise embedding of `pd.cut(series, bins, labels, right=False)`:
a missing value stays missing, otherwise the half-open, left-inclusive
bins are searched. -/
def pdCutLeftClosed (bins : List ℚ) (labels : List String) (x : Option ℚ) : Option String :=
  match x with
  | some a => cutFind a bins labels
  | none => none

/-- Embedding of the age bucketing (`03_feature_engineering.py` lines
176-181): `pd.cut(age, bins=[0, 18, 40, 65, 100],
labels=['pediatric', 'young_adult', 'middle_aged', 'elderly'], right=False)`. -/
def age_category (age : Option ℚ) : Option String :=
  pdCutLeftClosed [0, 18, 40, 65, 100]
    ["pediatric", "young_adult", "middle_aged", "elderly"] age

/-- Embedding of the BMI bucketing (`03_feature_engineering.py` lines
186-191): `pd.cut(bmi, bins=[0, 18.5, 25, 30, 100],
labels=['underweight', 'normal', 'overweight', 'obese'], right=False)`. -/
def bmi_category (bmi : Option ℚ) : Option String :=
  pdCutLeftClosed [0, 18.5, 25, 30, 100]
    ["underweight", "normal", "overweight", "obese"] bmi

/-- Index key of the group pivot (`02_eda.py` line 65): the columns
`['study_sid', 'study_name', 'group_pk', 'group_name', 'group_count']`.
The ingestion collaborator delivers them non-null, so they are modelled
as plain (non-optional) fields. -/
structure GKey where
  study_sid : String
  study_name : String
  group_pk : Int
  group_name : String
  group_count : Int
deriving DecidableEq

/-- Long-format measurement record of the groups table
(`data/raw/pkdb_groups.csv` as consumed by `02_eda.py`): one row per
(group, measurement_type), the numeric value in the `mean` column and
the categorical value in the `choice` column, each possibly null. -/
structure GRecord where
  key : GKey
  measurement_type : String
  mean : Option ℚ
  choice : Option String
deriving DecidableEq

/-- The numeric measurement types of `02_eda.py` line 57. -/
def numeric_types : List String :=
  ["age", "weight", "bmi", "height", "concentration"]

/-- The categorical (choice) measurement types of `02_eda.py` lines 58-60. -/
def choice_types : List String :=
  ["sex", "healthy", "species", "smoking", "ethnicity",
   "medication", "overnight fast", "disease",
   "abstinence", "oral contraceptives", "abstinence medication"]

/-- Numeric value accessor: the `mean` column (`values='mean'`). -/
def meanVal (r : GRecord) : Option ℚ := r.mean

/-- Choice value accessor: the `choice` column (`values='choice'`). -/
def choiceVal (r : GRecord) : Option String := r.choice

/-- First non-null element of a list of optional values: the semantics
of the pandas `'first'` groupby aggregation, which skips nulls. -/
def firstSome {α : Type} : List (Option α) → Option α
  | [] => none
  | some a :: _ => some a
  | none :: l => firstSome l

/-- Row index of one half of the pivot
(`pivot_table(index=id_cols, columns='measurement_type', values=v,
aggfunc='first')` on the `isin(types)`-filtered records): the distinct
keys among filtered records carrying a non-null value.  `pivot_table`
drops aggregated cells that are null, and with them any key all of
whose cells are null. -/
def pivKeys {α : Type} (rs : List GRecord) (types : List String)
    (val : GRecord → Option α) : List GKey :=
  ((rs.filter fun r =>
      types.contains r.measurement_type && (val r).isSome).map (·.key)).dedup

/-- Value columns of one half of the pivot: the distinct measurement
types among filtered records carrying a non-null value (`pivot_table`
with `dropna=True` keeps no all-null column; types absent from the
records produce no column at all). -/
def pivCols {α : Type} (rs : List GRecord) (types : List String)
    (val : GRecord → Option α) : List String :=
  ((rs.filter fun r =>
      types.contains r.measurement_type && (val r).isSome).map
        (·.measurement_type)).dedup

/-- Cell of one half of the pivot at key `k`, column `t`: the first
non-null value, in input order, among the filtered records of that
(key, type) pair — `aggfunc='first'`.  A combination with no such
record is null. -/
def pivCell {α : Type} (rs : List GRecord) (types : List String)
    (val : GRecord → Option α) (k : GKey) (t : String) : Option α :=
  firstSome ((rs.filter fun r =>
      types.contains r.measurement_type && r.key == k
        && r.measurement_type == t).map val)

/-- The wide groups table produced by `02_eda.py` lines 63-85: numeric
pivot and choice pivot outer-merged on the id columns. -/
structure GWide where
  keys : List GKey
  numCols : List String
  choiceCols : List String
  numCell : GKey → String → Option ℚ
  choiceCell : GKey → String → Option String

/-- Embedding of `df_groups_wide` (`02_eda.py` lines 63-85): the numeric
pivot (`grp_numeric`) and the choice pivot (`grp_choice`) merged with
`pd.merge(..., on=id_cols, how='outer')` — rows of the left table, then
the right-only rows; a key missing from one side has null cells in that
side's columns, which coincides with `pivCell` (no matching record with
a non-null value means a null first-aggregate). -/
def df_groups_wide (rs : List GRecord) : GWide :=
  let nk := pivKeys rs numeric_types meanVal
  let ck := pivKeys rs choice_types choiceVal
  { keys := nk ++ ck.filter fun k => !nk.contains k
    numCols := pivCols rs numeric_types meanVal
    choiceCols := pivCols rs choice_types choiceVal
    numCell := pivCell rs numeric_types meanVal
    choiceCell := pivCell rs choice_types choiceVal }

/-- A dataframe scalar: wide-table columns mix floats and strings. -/
inductive Val where
  | num (q : ℚ)
  | str (s : String)
deriving DecidableEq

/-- A dataframe cell, `none` modelling `NaN`. -/
abbrev Cell := Option Val

/-- A wide-table row: its cells keyed by column name (the mapping view
of a pandas row; columns carried by the enclosing table). -/
abbrev Row := String → Cell

/-- A dataframe: its column list and its rows. -/
structure DTable where
  cols : List String
  rows : List Row

/-- Cell of row `r` in column `c`. -/
def rowGet (r : Row) (c : String) : Cell := r c

/-- Write cell `v` into column `c` of row `r`. -/
def rowSet (r : Row) (c : String) (v : Cell) : Row :=
  fun d => if d = c then v else r d

/-- Column-presence test, pandas `c in df.columns`. -/
def DTable.hasCol (t : DTable) (c : String) : Bool := t.cols.contains c

/-- Whole-column assignment `df[c] = f(row)` — row-wise, adding the
column when absent. -/
def setColWith (t : DTable) (c : String) (f : Row → Cell) : DTable :=
  { cols := if t.cols.contains c then t.cols else t.cols ++ [c]
    rows := t.rows.map fun r => rowSet r c (f r) }

/-- Numeric reading of a cell (a non-numeric or missing cell reads as
missing). -/
def cellNum : Cell → Option ℚ
  | some (Val.num q) => some q
  | _ => none

/-- String reading of a cell. -/
def cellStr : Cell → Option String
  | some (Val.str s) => some s
  | _ => none

/-- Element-wise embedding of `encode_binary` (`03_feature_engineering.py`
lines 97-102): missing stays missing; a present string value maps to 1
when its lowercasing is among the lowercased `positive_values`, else 0.
A present non-string value: pandas `.str.lower()` yields null there, so
`.isin` is `False` and the encoding is 0. -/
def encode_binary (cell : Cell) (positive_values : List String) : Cell :=
  match cell with
  | none => none
  | some (Val.str s) =>
      some (Val.num
        (if (positive_values.map strLower).contains (strLower s) then 1 else 0))
  | some (Val.num _) => some (Val.num 0)

/-- Section 3a of `03_feature_engineering.py` (lines 117-118): ensure a
`bmi` column exists, initialised to all-null. -/
def addBmiColStep (t : DTable) : DTable :=
  if t.hasCol "bmi" then t else setColWith t "bmi" fun _ => none

/-- Row update of the BMI fill (lines 120-124): on the mask
`bmi.isna() & weight.notna() & height.notna()` assign
`calc_bmi(weight, height)`, elsewhere keep the existing `bmi` cell. -/
def fillBmiRow (r : Row) : Cell :=
  if (rowGet r "bmi").isNone && (rowGet r "weight").isSome
      && (rowGet r "height").isSome then
    (calc_bmi (cellNum (rowGet r "weight")) (cellNum (rowGet r "height"))).map Val.num
  else rowGet r "bmi"

/-- Section 3a BMI fill (lines 119-124), guarded by `'height' in
df_g.columns`; inside the guard the mask expression reads the `bmi` and
`weight` columns unconditionally, raising a `KeyError` when one is
absent. -/
def fillBmiStep (t : DTable) : Except String DTable :=
  if t.hasCol "height" then
    if !t.hasCol "bmi" then .error "KeyError: bmi"
    else if !t.hasCol "weight" then .error "KeyError: weight"
    else .ok (setColWith t "bmi" fillBmiRow)
  else .ok t

/-- Row value of the BSA column (lines 129-133):
`calc_bsa_dubois(weight.fillna(0), height.fillna(0))`, then
`bsa == 0 → NaN`.  The DuBois formula
`0.007184 * w**0.425 * h**0.725` is a transcendental real power with no
exact rational value, so the numeric function is a parameter `bsaF`; the
guard structure is the faithful part. -/
def bsaRow (bsaF : ℚ → ℚ → ℚ) (r : Row) : Cell :=
  let w := (cellNum (rowGet r "weight")).getD 0
  let h := (cellNum (rowGet r "height")).getD 0
  if 0 < w ∧ 0 < h then
    let v := bsaF w h
    if v = 0 then none else some (Val.num v)
  else none

/-- Section 3b BSA (lines 128-133), guarded by `'height' in columns`;
inside the guard the `weight` column is read unconditionally. -/
def bsaStep (bsaF : ℚ → ℚ → ℚ) (t : DTable) : Except String DTable :=
  if t.hasCol "height" then
    if !t.hasCol "weight" then .error "KeyError: weight"
    else .ok (setColWith t "bsa" (bsaRow bsaF))
  else .ok t

/-- Row value of the estimated creatinine clearance (lines 140-145): on
the mask `age.notna() & weight.notna() & sex.notna()` the
Cockcroft-Gault value with the default `scr=1.0`, elsewhere null. -/
def crclRow (r : Row) : Cell :=
  if (rowGet r "age").isSome && (rowGet r "weight").isSome
      && (rowGet r "sex").isSome then
    (calc_creatinine_clearance (cellNum (rowGet r "age"))
      (cellNum (rowGet r "weight")) (cellStr (rowGet r "sex")) 1).map Val.num
  else none

/-- Section 3c CrCl (lines 136-146).  Line 137,
`has_crcl = df_g['age'].notna() & df_g['weight'].notna()`, runs BEFORE
the `'sex' in df_g.columns` guard, so an absent `age` or `weight`
column raises a `KeyError` here; an absent `sex` column only skips the
`est_crcl` feature. -/
def crclStep (t : DTable) : Except String DTable :=
  if !t.hasCol "age" then .error "KeyError: age"
  else if !t.hasCol "weight" then .error "KeyError: weight"
  else if t.hasCol "sex" then .ok (setColWith t "est_crcl" crclRow)
  else .ok t

/-- Row value of the ideal body weight (lines 150-155): on the mask
`height.notna() & sex.notna()` the Devine value, elsewhere null. -/
def ibwRow (r : Row) : Cell :=
  if (rowGet r "height").isSome && (rowGet r "sex").isSome then
    (calc_ideal_body_weight (cellNum (rowGet r "height"))
      (cellStr (rowGet r "sex"))).map Val.num
  else none

/-- Section 3d IBW (lines 149-156), guarded by both `'height'` and
`'sex'` being present. -/
def ibwStep (t : DTable) : DTable :=
  if t.hasCol "height" && t.hasCol "sex" then setColWith t "ibw" ibwRow else t

/-- One binary-encoding block of section 3e (lines 159-173): guarded by
the source column's presence, writing `encode_binary(src, pos)` to the
destination column. -/
def binStep (t : DTable) (src dst : String) (pos : List String) : DTable :=
  if t.hasCol src then
    setColWith t dst fun r => encode_binary (rowGet r src) pos
  else t

/-- Row value of `age_category` (lines 176-181): `pd.cut` on the `age`
cell. -/
def ageCatRow (r : Row) : Cell :=
  (age_category (cellNum (rowGet r "age"))).map Val.str

/-- Row value of `bmi_category` (lines 186-191). -/
def bmiCatRow (r : Row) : Cell :=
  (bmi_category (cellNum (rowGet r "bmi"))).map Val.str

/-- Section 3g (lines 185-191), guarded by `'bmi' in columns` (always
true after section 3a). -/
def bmiCategoryStep (t : DTable) : DTable :=
  if t.hasCol "bmi" then setColWith t "bmi_category" bmiCatRow else t

/-- The binary-encoding blocks of section 3e (lines 159-173) followed by
the categorical blocks 3f-3g, the part of the pipeline after the IBW
block that runs once the `age` column is known present. -/
def tailSteps (t : DTable) : DTable :=
  let t6 := binStep t "smoking" "is_smoker" ["yes", "true", "smoker", "Y"]
  let t7 := binStep t6 "healthy" "is_healthy" ["yes", "true", "Y", "healthy"]
  let t8 := binStep t7 "oral contraceptives" "on_oc" ["yes", "true", "Y"]
  let t9 := binStep t8 "sex" "is_female" ["F", "female", "f"]
  bmiCategoryStep (setColWith t9 "age_category" ageCatRow)

/-- The groups feature-engineering transform: section 3 of
`03_feature_engineering.py` (lines 114-192) as a whole, in source
order, a raised `KeyError` modelled by `Except.error` (sequencing of
statements that may raise is written as explicit matches).  The
`age_category` block (3f) reads the `age` column unguarded, but the
CrCl block (3c) has already raised when `age` is absent, so by the time
3f runs the read always succeeds. -/
def featureGroups (bsaF : ℚ → ℚ → ℚ) (t : DTable) : Except String DTable :=
  match fillBmiStep (addBmiColStep t) with
  | .error e => .error e
  | .ok t2 =>
    match bsaStep bsaF t2 with
    | .error e => .error e
    | .ok t3 =>
      match crclStep t3 with
      | .error e => .error e
      | .ok t4 => .ok (tailSteps (ibwStep t4))

/-- A concrete entity key used by the concrete-input theorems. -/
def exKey : GKey := ⟨"S1", "StudyOne", 1, "G1", 12⟩

/-- The round-trip input of the spec (section 8): exactly two records
for one entity, numeric `age = 34` and choice `sex = "f"`. -/
def roundTripRecords : List GRecord :=
  [⟨exKey, "age", some 34, none⟩, ⟨exKey, "sex", none, some "f"⟩]

/-- Records with duplicate (entity, measurement_type) pairs holding
different values, numeric and choice. -/
def dupRecords : List GRecord :=
  [⟨exKey, "age", some 5, none⟩, ⟨exKey, "age", some 9, none⟩,
   ⟨exKey, "sex", none, some "m"⟩, ⟨exKey, "sex", none, some "f"⟩]

/-- An entity carrying a numeric record only, no choice record. -/
def onlyNumericRecords : List GRecord :=
  [⟨exKey, "weight", some 70, none⟩]

/-- An entity carrying a choice record only, no numeric record. -/
def onlyChoiceRecords : List GRecord :=
  [⟨exKey, "sex", none, some "f"⟩]

/-- Row with `weight = 70` and `sex = "m"`. -/
def rowNoAge : Row :=
  fun d => if d = "weight" then some (Val.num 70)
    else if d = "sex" then some (Val.str "m") else none

/-- A wide table whose `age` column is entirely absent (while `weight`
and `sex` are present). -/
def tableNoAge : DTable :=
  ⟨["weight", "sex"], [rowNoAge]⟩

/-- Row with `age = 30` and `weight = 70`. -/
def rowAgeWeight : Row :=
  fun d => if d = "age" then some (Val.num 30)
    else if d = "weight" then some (Val.num 70) else none

/-- A wide table with only the `age` and `weight` columns present. -/
def tableAgeWeight : DTable :=
  ⟨["age", "weight"], [rowAgeWeight]⟩

/-- Row with `age = 30`, a missing `weight` and an existing `bmi = 22`. -/
def rowWithBmi : Row :=
  fun d => if d = "age" then some (Val.num 30)
    else if d = "bmi" then some (Val.num 22) else none

/-- A wide table with an existing non-null `bmi` cell and a missing
`weight` cell. -/
def tableWithBmi : DTable :=
  ⟨["age", "weight", "bmi"], [rowWithBmi]⟩

/-- Frame relation for the BMI fallback claim: row `r2` reads the same
`weight` as `r`, keeps any present `bmi` value of `r`, and keeps `bmi`
missing when it was missing and `weight` is missing too (so no formula
was applicable). -/
def BmiKept (r r2 : Row) : Prop :=
  rowGet r2 "weight" = rowGet r "weight" ∧
  (∀ v : Val, rowGet r "bmi" = some v → rowGet r2 "bmi" = some v) ∧
  (rowGet r "bmi" = none → (rowGet r "weight").isSome = false →
    rowGet r2 "bmi" = none)

/-- Table-level frame relation: same row count, rows pairwise related by
`BmiKept` at every index. -/
def KeptTable (t u : DTable) : Prop :=
  u.rows.length = t.rows.length ∧
  ∀ i r r2, t.rows.get? i = some r → u.rows.get? i = some r2 → BmiKept r r2

/-- Lowercasing a character never yields an upper-case letter such as
`'F'`: in the mapped branch the code point lands in `[97, 122]`, and in
the identity branch the character was not upper-case. -/
theorem char_toLower_ne_big_f (c : Char) : Char.toLower c ≠ 'F' := by
  simp only [Char.toLower]
  split
  · next h =>
    obtain ⟨h1, h2⟩ := h
    obtain ⟨k, hk⟩ := Nat.le.dest h1
    have hk25 : k ≤ 25 := by omega
    rw [← hk]
    interval_cases k <;> decide
  · next h =>
    rintro rfl
    exact h (by decide)

/-- No lowercased string is the literal `"F"`, so the `'F'` entry of the
source's female list `['f', 'female', 'F']` can never match after
`.str.lower()`. -/
theorem strLower_ne_big_f (s : String) : strLower s ≠ "F" := by
  obtain ⟨l⟩ := s
  intro h
  have hd : l.map Char.toLower = ['F'] := congrArg String.data h
  cases l with
  | nil => simp at hd
  | cons c tl =>
      simp only [List.map_cons, List.cons.injEq] at hd
      exact char_toLower_ne_big_f c hd.1

/-- The source's female classifier coincides with the case-insensitive
match against the two-element set `{f, female}`. -/
theorem isFemaleSex_some (s : String) :
    isFemaleSex (some s) = (strLower s == "f" || strLower s == "female") := by
  have h : (strLower s == "F") = false := beq_eq_false_iff_ne.mpr (strLower_ne_big_f s)
  simp only [isFemaleSex, List.contains, List.elem_cons, List.elem_nil, h]
  cases hf : strLower s == "f" <;> cases hfem : strLower s == "female" <;> simp [hf, hfem]

/-- C1 counterexample: the claim's numeric approximations are wrong.
`ideal_body_weight(180, "male")` is exactly `9524/127 ≈ 74.99 kg`, about
39.9 kg away from the claimed `≈ 114.9 kg`, and
`ideal_body_weight(180, "female")` is exactly `17905/254 ≈ 70.49 kg`,
about 39.9 kg away from the claimed `≈ 110.4 kg`. -/
theorem C1_ibw_counterexample :
    calc_ideal_body_weight (some 180) (some "male") = some (9524 / 127) ∧
    |(9524 : ℚ) / 127 - 114.9| > 39 ∧
    calc_ideal_body_weight (some 180) (some "female") = some (17905 / 254) ∧
    |(17905 : ℚ) / 254 - 110.4| > 39 := by
  have hm : isFemaleSex (some "male") = false := by decide
  have hf : isFemaleSex (some "female") = true := by decide
  refine ⟨?_, ?_, ?_, ?_⟩
  · simp only [calc_ideal_body_weight, hm]
    norm_num
  · rw [abs_of_nonpos (by norm_num)]
    norm_num
  · simp only [calc_ideal_body_weight, hf]
    norm_num
  · rw [abs_of_nonpos (by norm_num)]
    norm_num

/-- C1 amended: for every present height, `calc_ideal_body_weight`
returns `45.5 + 2.3×(height/2.54 − 60)` when the lowercased sex is in
`{f, female}` (case-insensitive female classification) and
`50 + 2.3×(height/2.54 − 60)` otherwise (missing sex included); the
concrete values are `ideal_body_weight(180, "male") = 9524/127 ≈ 75.0 kg`
and `ideal_body_weight(180, "female") = 17905/254 ≈ 70.5 kg`. -/
theorem C1_ibw_formula :
    (∀ (h : ℚ) (s : String), calc_ideal_body_weight (some h) (some s) =
      some (if strLower s = "f" ∨ strLower s = "female"
            then 45.5 + 2.3 * (h / 2.54 - 60)
            else 50 + 2.3 * (h / 2.54 - 60))) ∧
    (∀ s : Option String, calc_ideal_body_weight none s = none) ∧
    calc_ideal_body_weight (some 180) (some "male") = some (9524 / 127) ∧
    |(9524 : ℚ) / 127 - 75| < 1 / 100 ∧
    calc_ideal_body_weight (some 180) (some "female") = some (17905 / 254) ∧
    |(17905 : ℚ) / 254 - 70.5| < 1 / 100 := by
  have hm : isFemaleSex (some "male") = false := by decide
  have hf : isFemaleSex (some "female") = true := by decide
  refine ⟨fun h s => ?_, fun s => rfl, ?_, ?_, ?_, ?_⟩
  · simp only [calc_ideal_body_weight, isFemaleSex_some s, Bool.or_eq_true, beq_iff_eq]
    split <;> rfl
  · simp only [calc_ideal_body_weight, hm]
    norm_num
  · rw [abs_of_nonpos (by norm_num)]
    norm_num
  · simp only [calc_ideal_body_weight, hf]
    norm_num
  · rw [abs_of_nonpos (by norm_num)]
    norm_num

/-- C4: `calc_bmi` returns `weight / (height/100)^2` exactly when both
weight and height are present and positive, and null when either is
non-positive or missing. -/
theorem C4_bmi_guard :
    (∀ w h : ℚ, 0 < w → 0 < h → calc_bmi (some w) (some h) = some (w / (h / 100) ^ 2)) ∧
    (∀ w h : ℚ, w ≤ 0 ∨ h ≤ 0 → calc_bmi (some w) (some h) = none) ∧
    (∀ h, calc_bmi none h = none) ∧
    (∀ w, calc_bmi w none = none) := by
  refine ⟨fun w h hw hh => ?_, fun w h hwh => ?_, fun h => ?_, fun w => ?_⟩
  · simp [calc_bmi, hw, hh]
  · have hno : ¬(0 < w ∧ 0 < h) := by
      rcases hwh with h1 | h1 <;> rintro ⟨c1, c2⟩ <;> linarith
    simp [calc_bmi, hno]
  · cases h <;> rfl
  · cases w <;> rfl

/-- C4 witness: the positive branch at (70, 180) and the non-positive
branch at (-1, 180). -/
theorem C4_bmi_guard_witness :
    calc_bmi (some 70) (some 180) = some (70 / (180 / 100) ^ 2) ∧
    calc_bmi (some (-1)) (some 180) = none :=
  ⟨C4_bmi_guard.1 70 180 (by norm_num) (by norm_num),
   C4_bmi_guard.2.1 (-1) 180 (Or.inl (by norm_num))⟩

/-- C5: with the default `scr = 1.0`, `calc_creatinine_clearance` is
`((140 − age) × weight) / (72 × scr)`, multiplied by `0.85` exactly when
the sex is classified female; concretely
`creatinine_clearance(40, 70, "male") = 7000/72 = 875/9 ≈ 97.222` and
`creatinine_clearance(40, 70, "female") = 875/9 × 0.85 = 2975/36 ≈ 82.639`. -/
theorem C5_crcl_formula :
    (∀ (a w : ℚ) (s : Option String),
      calc_creatinine_clearance (some a) (some w) s 1 =
        some (if isFemaleSex s
              then ((140 - a) * w) / (72 * 1) * 0.85
              else ((140 - a) * w) / (72 * 1))) ∧
    calc_creatinine_clearance (some 40) (some 70) (some "male") 1 =
      some (((140 - 40) * 70) / (72 * 1)) ∧
    calc_creatinine_clearance (some 40) (some 70) (some "female") 1 =
      some ((((140 - 40) * 70) / (72 * 1)) * 0.85) ∧
    (((140 - 40 : ℚ) * 70) / (72 * 1)) = 875 / 9 ∧
    ((((140 - 40 : ℚ) * 70) / (72 * 1)) * 0.85) = 2975 / 36 := by
  have hm : isFemaleSex (some "male") = false := by decide
  have hf : isFemaleSex (some "female") = true := by decide
  refine ⟨fun a w s => ?_, ?_, ?_, by norm_num, by norm_num⟩
  · cases hs : isFemaleSex s <;> simp [calc_creatinine_clearance, hs]
  · simp [calc_creatinine_clearance, hm]
  · simp [calc_creatinine_clearance, hf]

/-- C8: `age_category` buckets into the half-open, left-inclusive bins
pediatric `[0,18)`, young_adult `[18,40)`, middle_aged `[40,65)`,
elderly `[65,100)`, and is null outside `[0,100)`; in particular at
17, 18, 65, 100 and on a missing age. -/
theorem C8_age_category_bins :
    (∀ a : ℚ,
      (0 ≤ a ∧ a < 18 → age_category (some a) = some "pediatric") ∧
      (18 ≤ a ∧ a < 40 → age_category (some a) = some "young_adult") ∧
      (40 ≤ a ∧ a < 65 → age_category (some a) = some "middle_aged") ∧
      (65 ≤ a ∧ a < 100 → age_category (some a) = some "elderly") ∧
      (a < 0 ∨ 100 ≤ a → age_category (some a) = none)) ∧
    age_category (some 17) = some "pediatric" ∧
    age_category (some 18) = some "young_adult" ∧
    age_category (some 65) = some "elderly" ∧
    age_category (some 100) = none ∧
    age_category none = none := by
  refine ⟨fun a => ⟨?_, ?_, ?_, ?_, ?_⟩, by decide, by decide, by decide, by decide, rfl⟩
  · rintro ⟨h1, h2⟩
    simp only [age_category, pdCutLeftClosed, cutFind]
    rw [if_pos ⟨h1, h2⟩]
  · rintro ⟨h1, h2⟩
    simp only [age_category, pdCutLeftClosed, cutFind]
    rw [if_neg (by rintro ⟨-, hc⟩; linarith), if_pos ⟨h1, h2⟩]
  · rintro ⟨h1, h2⟩
    simp only [age_category, pdCutLeftClosed, cutFind]
    rw [if_neg (by rintro ⟨-, hc⟩; linarith), if_neg (by rintro ⟨-, hc⟩; linarith),
      if_pos ⟨h1, h2⟩]
  · rintro ⟨h1, h2⟩
    simp only [age_category, pdCutLeftClosed, cutFind]
    rw [if_neg (by rintro ⟨-, hc⟩; linarith), if_neg (by rintro ⟨-, hc⟩; linarith),
      if_neg (by rintro ⟨-, hc⟩; linarith), if_pos ⟨h1, h2⟩]
  · intro hout
    simp only [age_category, pdCutLeftClosed, cutFind]
    rcases hout with h1 | h1
    · rw [if_neg (by rintro ⟨hc, -⟩; linarith), if_neg (by rintro ⟨hc, -⟩; linarith),
        if_neg (by rintro ⟨hc, -⟩; linarith), if_neg (by rintro ⟨hc, -⟩; linarith)]
    · rw [if_neg (by rintro ⟨-, hc⟩; linarith), if_neg (by rintro ⟨-, hc⟩; linarith),
        if_neg (by rintro ⟨-, hc⟩; linarith), if_neg (by rintro ⟨-, hc⟩; linarith)]

/-- C8 witness: the bin bounds discharged on the concrete ages 17
(pediatric) and 118 (outside `[0,100)`, null). -/
theorem C8_age_category_bins_witness :
    age_category (some 17) = some "pediatric" ∧ age_category (some 118) = none :=
  ⟨(C8_age_category_bins.1 17).1 ⟨by norm_num, by norm_num⟩,
   (C8_age_category_bins.1 118).2.2.2.2 (Or.inr (by norm_num))⟩

/-- C10 (implicit behavior): with a missing sex both functions fall into
the male branch rather than propagating the missing value —
`calc_creatinine_clearance` returns the uncorrected
`((140 − age) × weight) / (72 × scr)` and `calc_ideal_body_weight`
returns `50 + 2.3 × (height/2.54 − 60)`. -/
theorem C10_missing_sex_male_default :
    (∀ a w scr : ℚ, calc_creatinine_clearance (some a) (some w) none scr =
      some (((140 - a) * w) / (72 * scr))) ∧
    (∀ h : ℚ, calc_ideal_body_weight (some h) none =
      some (50 + 2.3 * (h / 2.54 - 60))) := by
  exact ⟨fun a w scr => rfl, fun h => rfl⟩

/-- When `find?` locates a first match, that match heads the filtered
list. -/
theorem filter_head_of_find {α : Type} (p : α → Bool) :
    ∀ (l : List α) (a : α), l.find? p = some a → ∃ l2, l.filter p = a :: l2
  | [], a, h => by simp at h
  | x :: tl, a, h => by
      cases hpx : p x with
      | true =>
          rw [List.find?_cons_of_pos _ hpx] at h
          obtain rfl : x = a := by injection h
          exact ⟨tl.filter p, List.filter_cons_of_pos hpx⟩
      | false =>
          rw [List.find?_cons_of_neg _ (by simp [hpx])] at h
          obtain ⟨l2, hl2⟩ := filter_head_of_find p tl a h
          exact ⟨l2, by rw [List.filter_cons_of_neg (by simp [hpx]), hl2]⟩

/-- First-aggregation lemma for one pivot cell: when the first record of
the (key, type) pair in input order carries value `v`, the cell is `v`,
whatever records follow. -/
theorem pivCell_first {α : Type} (rs : List GRecord) (types : List String)
    (val : GRecord → Option α) (k : GKey) (t : String) (r0 : GRecord) (v : α)
    (ht : t ∈ types)
    (hfind : rs.find? (fun r => r.key == k && r.measurement_type == t) = some r0)
    (hval : val r0 = some v) :
    pivCell rs types val k t = some v := by
  have hpq : ∀ r ∈ rs,
      (types.contains r.measurement_type && (r.key == k) && (r.measurement_type == t))
        = ((r.key == k) && (r.measurement_type == t)) := by
    intro r _
    cases hmt : r.measurement_type == t with
    | false => simp [hmt]
    | true =>
        have hmt2 : r.measurement_type = t := eq_of_beq hmt
        have hc : types.contains r.measurement_type = true := by
          rw [hmt2]; exact List.elem_iff.mpr ht
        simp only [hmt, hc, Bool.and_true, Bool.true_and]
  obtain ⟨l2, hl2⟩ :=
    filter_head_of_find (fun r => r.key == k && r.measurement_type == t) rs r0 hfind
  unfold pivCell
  rw [List.filter_congr hpq, hl2, List.map_cons, hval]
  rfl

/-- Unfolding of the merged table's row index. -/
theorem keys_df_groups_wide (rs : List GRecord) :
    (df_groups_wide rs).keys =
      pivKeys rs numeric_types meanVal
        ++ (pivKeys rs choice_types choiceVal).filter
             (fun kk => !(pivKeys rs numeric_types meanVal).contains kk) := rfl

/-- Unfolding of the merged table's numeric cells. -/
theorem numCell_df_groups_wide (rs : List GRecord) :
    (df_groups_wide rs).numCell = pivCell rs numeric_types meanVal := rfl

/-- Unfolding of the merged table's choice cells. -/
theorem choiceCell_df_groups_wide (rs : List GRecord) :
    (df_groups_wide rs).choiceCell = pivCell rs choice_types choiceVal := rfl

/-- C6: duplicate (entity, measurement_type) pairs resolve to the first
record encountered in input order — for both the numeric and the choice
pivot, whenever the first record of the pair in input order carries the
given value, the wide cell equals that value, later duplicates being
discarded silently (the pivot is a total function; no input raises). -/
theorem C6_first_seen_wins (rs : List GRecord) (k : GKey) :
    (∀ (t : String) (v : ℚ) (r0 : GRecord), t ∈ numeric_types →
      rs.find? (fun r => r.key == k && r.measurement_type == t) = some r0 →
      r0.mean = some v →
      (df_groups_wide rs).numCell k t = some v) ∧
    (∀ (t s : String) (r0 : GRecord), t ∈ choice_types →
      rs.find? (fun r => r.key == k && r.measurement_type == t) = some r0 →
      r0.choice = some s →
      (df_groups_wide rs).choiceCell k t = some s) := by
  constructor
  · intro t v r0 ht hfind hval
    rw [numCell_df_groups_wide]
    exact pivCell_first rs numeric_types meanVal k t r0 v ht hfind hval
  · intro t s r0 ht hfind hval
    rw [choiceCell_df_groups_wide]
    exact pivCell_first rs choice_types choiceVal k t r0 s ht hfind hval

/-- C6 witness: on `dupRecords`, the duplicated numeric pair
(`age = 5` then `age = 9`) resolves to 5 and the duplicated choice pair
(`sex = "m"` then `sex = "f"`) resolves to `"m"`. -/
theorem C6_first_seen_wins_witness :
    (df_groups_wide dupRecords).numCell exKey "age" = some 5 ∧
    (df_groups_wide dupRecords).choiceCell exKey "sex" = some "m" :=
  ⟨(C6_first_seen_wins dupRecords exKey).1 "age" 5 ⟨exKey, "age", some 5, none⟩
      (by decide) (by decide) rfl,
   (C6_first_seen_wins dupRecords exKey).2 "sex" "m" ⟨exKey, "sex", none, some "m"⟩
      (by decide) (by decide) rfl⟩

/-- C3 counterexample: on the two-record round-trip input, `weight` is a
declared numeric measurement type and yet is NOT a column of the pivoted
output — the pivot only creates columns for measurement types present
in the input, so the claim that every other declared column is present
(with a null value) fails. -/
theorem C3_round_trip_counterexample :
    "weight" ∈ numeric_types ∧
    "weight" ∉ (df_groups_wide roundTripRecords).numCols := by
  exact ⟨by decide, by decide⟩

/-- C3 amended: on the round-trip input the pivot yields exactly one row,
keyed by the entity, with `age = 34` and `sex = "f"`; the output's value
columns are exactly `age` and `sex` — declared measurement types not
present in the input yield no column at all (rather than a null-valued
column). -/
theorem C3_round_trip_row :
    (df_groups_wide roundTripRecords).keys = [exKey] ∧
    (df_groups_wide roundTripRecords).numCell exKey "age" = some 34 ∧
    (df_groups_wide roundTripRecords).choiceCell exKey "sex" = some "f" ∧
    (df_groups_wide roundTripRecords).numCols = ["age"] ∧
    (df_groups_wide roundTripRecords).choiceCols = ["sex"] := by
  refine ⟨by decide, by decide, by decide, by decide, by decide⟩

/-- C7: an entity with at least one numeric record (carrying a value)
and no choice record still appears in the merged wide table, as exactly
one row, with every choice column of the output null on it — and vice
versa: an entity with at least one choice record and no numeric record
also appears as exactly one row, with every numeric column null.  The
outer merge drops no entity from either side. -/
theorem C7_outer_merge_complete (rs : List GRecord) (k : GKey) :
    ((∃ r ∈ rs, r.key = k ∧ r.measurement_type ∈ numeric_types ∧
        r.mean.isSome = true) →
      (∀ r ∈ rs, r.key = k → r.measurement_type ∉ choice_types) →
      (df_groups_wide rs).keys.count k = 1 ∧
        ∀ c ∈ (df_groups_wide rs).choiceCols,
          (df_groups_wide rs).choiceCell k c = none) ∧
    ((∃ r ∈ rs, r.key = k ∧ r.measurement_type ∈ choice_types ∧
        r.choice.isSome = true) →
      (∀ r ∈ rs, r.key = k → r.measurement_type ∉ numeric_types) →
      (df_groups_wide rs).keys.count k = 1 ∧
        ∀ c ∈ (df_groups_wide rs).numCols,
          (df_groups_wide rs).numCell k c = none) := by
  constructor
  · intro hnum hnoc
    obtain ⟨r, hr, hkey, htype, hsome⟩ := hnum
    have hkmem : k ∈ pivKeys rs numeric_types meanVal := by
      unfold pivKeys
      apply List.mem_dedup.mpr
      apply List.mem_map.mpr
      refine ⟨r, List.mem_filter.mpr ⟨hr, ?_⟩, hkey⟩
      have hc : numeric_types.contains r.measurement_type = true :=
        List.elem_iff.mpr htype
      rw [hc, meanVal, hsome]
      rfl
    have hknotc : k ∉ pivKeys rs choice_types choiceVal := by
      intro hmem
      unfold pivKeys at hmem
      obtain ⟨r2, hr2f, hr2k⟩ := List.mem_map.mp (List.mem_dedup.mp hmem)
      obtain ⟨hr2, hq⟩ := List.mem_filter.mp hr2f
      rw [Bool.and_eq_true] at hq
      exact hnoc r2 hr2 hr2k (List.elem_iff.mp hq.1)
    constructor
    · have hnodup : (pivKeys rs numeric_types meanVal).Nodup := by
        unfold pivKeys; exact List.nodup_dedup _
      rw [keys_df_groups_wide, List.count_append,
        List.count_eq_one_of_mem hnodup hkmem,
        List.count_eq_zero.mpr (fun hmem => hknotc (List.mem_filter.mp hmem).1)]
    · intro c hc
      rw [choiceCell_df_groups_wide]
      unfold pivCell
      have hfil : rs.filter (fun r2 =>
          choice_types.contains r2.measurement_type && (r2.key == k)
            && (r2.measurement_type == c)) = [] := by
        apply List.filter_eq_nil_iff.mpr
        intro r2 hr2 hP
        rw [Bool.and_eq_true, Bool.and_eq_true] at hP
        exact hnoc r2 hr2 (eq_of_beq hP.1.2) (List.elem_iff.mp hP.1.1)
      rw [hfil]
      rfl
  · intro hcho hnon
    obtain ⟨r, hr, hkey, htype, hsome⟩ := hcho
    have hkmem : k ∈ pivKeys rs choice_types choiceVal := by
      unfold pivKeys
      apply List.mem_dedup.mpr
      apply List.mem_map.mpr
      refine ⟨r, List.mem_filter.mpr ⟨hr, ?_⟩, hkey⟩
      have hc : choice_types.contains r.measurement_type = true :=
        List.elem_iff.mpr htype
      rw [hc, choiceVal, hsome]
      rfl
    have hknotn : k ∉ pivKeys rs numeric_types meanVal := by
      intro hmem
      unfold pivKeys at hmem
      obtain ⟨r2, hr2f, hr2k⟩ := List.mem_map.mp (List.mem_dedup.mp hmem)
      obtain ⟨hr2, hq⟩ := List.mem_filter.mp hr2f
      rw [Bool.and_eq_true] at hq
      exact hnon r2 hr2 hr2k (List.elem_iff.mp hq.1)
    have hcont : (pivKeys rs numeric_types meanVal).contains k = false :=
      Bool.eq_false_iff.mpr (fun h => hknotn (List.elem_iff.mp h))
    constructor
    · have hnodup : (pivKeys rs choice_types choiceVal).Nodup := by
        unfold pivKeys; exact List.nodup_dedup _
      have hmemfil : k ∈ (pivKeys rs choice_types choiceVal).filter
          (fun kk => !(pivKeys rs numeric_types meanVal).contains kk) := by
        apply List.mem_filter.mpr
        exact ⟨hkmem, by rw [hcont]; rfl⟩
      rw [keys_df_groups_wide, List.count_append,
        List.count_eq_zero.mpr hknotn,
        List.count_eq_one_of_mem (List.Nodup.filter _ hnodup) hmemfil]
    · intro c hc
      rw [numCell_df_groups_wide]
      unfold pivCell
      have hfil : rs.filter (fun r2 =>
          numeric_types.contains r2.measurement_type && (r2.key == k)
            && (r2.measurement_type == c)) = [] := by
        apply List.filter_eq_nil_iff.mpr
        intro r2 hr2 hP
        rw [Bool.and_eq_true, Bool.and_eq_true] at hP
        exact hnon r2 hr2 (eq_of_beq hP.1.2) (List.elem_iff.mp hP.1.1)
      rw [hfil]
      rfl

/-- C7 witness: both directions exercised — `onlyNumericRecords`, whose
entity has a numeric `weight` record and no choice record, and
`onlyChoiceRecords`, whose entity has a choice `sex` record and no
numeric record. -/
theorem C7_outer_merge_complete_witness :
    ((df_groups_wide onlyNumericRecords).keys.count exKey = 1 ∧
      ∀ c ∈ (df_groups_wide onlyNumericRecords).choiceCols,
        (df_groups_wide onlyNumericRecords).choiceCell exKey c = none) ∧
    ((df_groups_wide onlyChoiceRecords).keys.count exKey = 1 ∧
      ∀ c ∈ (df_groups_wide onlyChoiceRecords).numCols,
        (df_groups_wide onlyChoiceRecords).numCell exKey c = none) :=
  ⟨(C7_outer_merge_complete onlyNumericRecords exKey).1
      ⟨⟨exKey, "weight", some 70, none⟩, by decide, by decide, by decide, by decide⟩
      (by decide),
   (C7_outer_merge_complete onlyChoiceRecords exKey).2
      ⟨⟨exKey, "sex", none, some "f"⟩, by decide, by decide, by decide, by decide⟩
      (by decide)⟩

/-- Column bookkeeping of a whole-column assignment: afterwards a column
is present iff it was present or is the one assigned. -/
theorem hasCol_setColWith (t : DTable) (c : String) (f : Row → Cell) (d : String) :
    (setColWith t c f).hasCol d = (t.hasCol d || d == c) := by
  unfold setColWith DTable.hasCol
  cases hc : t.cols.contains c with
  | true => by_cases hdc : d = c <;> simp_all [List.contains]
  | false => by_cases hdc : d = c <;> simp_all [List.contains]

/-- Column bookkeeping of section 3a: only `bmi` can be added. -/
theorem addBmiColStep_hasCol (t : DTable) (d : String) :
    (addBmiColStep t).hasCol d = (t.hasCol d || (d == "bmi" && !t.hasCol "bmi")) := by
  unfold addBmiColStep
  cases hb : t.hasCol "bmi" with
  | true => by_cases hdb : d = "bmi" <;> simp_all
  | false => simp [hasCol_setColWith]

/-- Column bookkeeping of a binary-encoding block: only the destination
column can be added, and only when the source column is present. -/
theorem binStep_hasCol (t : DTable) (src dst : String) (pos : List String) (d : String) :
    (binStep t src dst pos).hasCol d = (t.hasCol d || (t.hasCol src && d == dst)) := by
  unfold binStep
  cases hs : t.hasCol src with
  | true => simp [hasCol_setColWith]
  | false => simp

/-- Column bookkeeping of section 3g. -/
theorem bmiCategoryStep_hasCol (t : DTable) (d : String) :
    (bmiCategoryStep t).hasCol d =
      (t.hasCol d || (t.hasCol "bmi" && d == "bmi_category")) := by
  unfold bmiCategoryStep
  cases hb : t.hasCol "bmi" with
  | true => simp [hb, hasCol_setColWith]
  | false => simp [hb]

/-- C2 counterexample: a wide table whose `age` column is entirely
absent does NOT complete the feature-engineering transform — line 137
(`has_crcl = df_g['age'].notna() & df_g['weight'].notna()`) reads the
`age` column before any guard, raising a `KeyError`, instead of
skipping the age-derived features. -/
theorem C2_missing_age_counterexample :
    featureGroups (fun _ _ => 0) tableNoAge = Except.error "KeyError: age" := rfl

/-- C2 amended: on any table that has `age` and `weight` columns (the
two read unguarded), the transform completes without exception whatever
other columns are absent; an absent `height` column skips the `bsa` and
`ibw` features entirely (absent from the output columns), and an absent
`sex` column skips `est_crcl`, `ibw` and `is_female` likewise.  An
absent `age` or `weight` column instead raises `KeyError`. -/
theorem C2_guarded_skips (bsaF : ℚ → ℚ → ℚ) (t : DTable)
    (hage : t.hasCol "age" = true) (hw : t.hasCol "weight" = true)
    (hc1 : t.hasCol "est_crcl" = false) (hc2 : t.hasCol "bsa" = false)
    (hc3 : t.hasCol "ibw" = false) (hc4 : t.hasCol "is_female" = false) :
    ∃ u, featureGroups bsaF t = Except.ok u ∧
      (t.hasCol "height" = false →
        u.hasCol "bsa" = false ∧ u.hasCol "ibw" = false) ∧
      (t.hasCol "sex" = false →
        u.hasCol "est_crcl" = false ∧ u.hasCol "ibw" = false ∧
          u.hasCol "is_female" = false) := by
  have hbbmi : (addBmiColStep t).hasCol "bmi" = true := by
    rw [addBmiColStep_hasCol]; cases hb : t.hasCol "bmi" <;> rfl
  have hbage : (addBmiColStep t).hasCol "age" = true := by
    rw [addBmiColStep_hasCol, hage]; rfl
  have hbw : (addBmiColStep t).hasCol "weight" = true := by
    rw [addBmiColStep_hasCol, hw]; rfl
  have hbh : (addBmiColStep t).hasCol "height" = t.hasCol "height" := by
    rw [addBmiColStep_hasCol]; simp
  have hbsex : (addBmiColStep t).hasCol "sex" = t.hasCol "sex" := by
    rw [addBmiColStep_hasCol]; simp
  cases hh : t.hasCol "height" with
  | false =>
    have e1 : fillBmiStep (addBmiColStep t) = .ok (addBmiColStep t) := by
      unfold fillBmiStep
      simp [hbh, hh]
    have e2 : bsaStep bsaF (addBmiColStep t) = .ok (addBmiColStep t) := by
      unfold bsaStep
      simp [hbh, hh]
    cases hs : t.hasCol "sex" with
    | false =>
      have e3 : crclStep (addBmiColStep t) = .ok (addBmiColStep t) := by
        unfold crclStep
        simp [hbage, hbw, hbsex, hs]
      have e4 : ibwStep (addBmiColStep t) = addBmiColStep t := by
        unfold ibwStep
        simp [hbsex, hs]
      refine ⟨tailSteps (addBmiColStep t), ?_, fun _ => ⟨?_, ?_⟩, fun _ => ⟨?_, ?_, ?_⟩⟩
      · simp only [featureGroups, e1, e2, e3, e4]
      · simp [tailSteps, bmiCategoryStep_hasCol, hasCol_setColWith, binStep_hasCol,
          addBmiColStep_hasCol, hc2]
      · simp [tailSteps, bmiCategoryStep_hasCol, hasCol_setColWith, binStep_hasCol,
          addBmiColStep_hasCol, hc3]
      · simp [tailSteps, bmiCategoryStep_hasCol, hasCol_setColWith, binStep_hasCol,
          addBmiColStep_hasCol, hc1]
      · simp [tailSteps, bmiCategoryStep_hasCol, hasCol_setColWith, binStep_hasCol,
          addBmiColStep_hasCol, hc3]
      · simp [tailSteps, bmiCategoryStep_hasCol, hasCol_setColWith, binStep_hasCol,
          addBmiColStep_hasCol, hc4, hs]
    | true =>
      have e3 : crclStep (addBmiColStep t)
          = .ok (setColWith (addBmiColStep t) "est_crcl" crclRow) := by
        unfold crclStep
        simp [hbage, hbw, hbsex, hs]
      have hh2 : (setColWith (addBmiColStep t) "est_crcl" crclRow).hasCol "height"
          = false := by
        rw [hasCol_setColWith, hbh, hh]; rfl
      have e4 : ibwStep (setColWith (addBmiColStep t) "est_crcl" crclRow)
          = setColWith (addBmiColStep t) "est_crcl" crclRow := by
        unfold ibwStep
        simp [hh2]
      refine ⟨tailSteps (setColWith (addBmiColStep t) "est_crcl" crclRow), ?_,
        fun _ => ⟨?_, ?_⟩, fun hfalse => ?_⟩
      · simp only [featureGroups, e1, e2, e3, e4]
      · simp [tailSteps, bmiCategoryStep_hasCol, hasCol_setColWith, binStep_hasCol,
          addBmiColStep_hasCol, hc2]
      · simp [tailSteps, bmiCategoryStep_hasCol, hasCol_setColWith, binStep_hasCol,
          addBmiColStep_hasCol, hc3]
      · exact absurd hfalse (by simp)
  | true =>
    have e1 : fillBmiStep (addBmiColStep t)
        = .ok (setColWith (addBmiColStep t) "bmi" fillBmiRow) := by
      unfold fillBmiStep
      simp [hbh, hh, hbbmi, hbw]
    have h2h : (setColWith (addBmiColStep t) "bmi" fillBmiRow).hasCol "height"
        = true := by
      rw [hasCol_setColWith, hbh, hh]; rfl
    have h2w : (setColWith (addBmiColStep t) "bmi" fillBmiRow).hasCol "weight"
        = true := by
      rw [hasCol_setColWith, hbw]; rfl
    have h2age : (setColWith (addBmiColStep t) "bmi" fillBmiRow).hasCol "age"
        = true := by
      rw [hasCol_setColWith, hbage]; rfl
    have h2sex : (setColWith (addBmiColStep t) "bmi" fillBmiRow).hasCol "sex"
        = t.hasCol "sex" := by
      rw [hasCol_setColWith, hbsex]; simp
    have e2 : bsaStep bsaF (setColWith (addBmiColStep t) "bmi" fillBmiRow)
        = .ok (setColWith (setColWith (addBmiColStep t) "bmi" fillBmiRow)
            "bsa" (bsaRow bsaF)) := by
      unfold bsaStep
      simp [h2h, h2w]
    have h3age : (setColWith (setColWith (addBmiColStep t) "bmi" fillBmiRow)
        "bsa" (bsaRow bsaF)).hasCol "age" = true := by
      rw [hasCol_setColWith, h2age]; rfl
    have h3w : (setColWith (setColWith (addBmiColStep t) "bmi" fillBmiRow)
        "bsa" (bsaRow bsaF)).hasCol "weight" = true := by
      rw [hasCol_setColWith, h2w]; rfl
    have h3h : (setColWith (setColWith (addBmiColStep t) "bmi" fillBmiRow)
        "bsa" (bsaRow bsaF)).hasCol "height" = true := by
      rw [hasCol_setColWith, h2h]; rfl
    have h3sex : (setColWith (setColWith (addBmiColStep t) "bmi" fillBmiRow)
        "bsa" (bsaRow bsaF)).hasCol "sex" = t.hasCol "sex" := by
      rw [hasCol_setColWith, h2sex]; simp
    cases hs : t.hasCol "sex" with
    | false =>
      have e3 : crclStep (setColWith (setColWith (addBmiColStep t) "bmi" fillBmiRow)
          "bsa" (bsaRow bsaF))
          = .ok (setColWith (setColWith (addBmiColStep t) "bmi" fillBmiRow)
              "bsa" (bsaRow bsaF)) := by
        unfold crclStep
        simp [h3age, h3w, h3sex, hs]
      have e4 : ibwStep (setColWith (setColWith (addBmiColStep t) "bmi" fillBmiRow)
          "bsa" (bsaRow bsaF))
          = setColWith (setColWith (addBmiColStep t) "bmi" fillBmiRow)
              "bsa" (bsaRow bsaF) := by
        unfold ibwStep
        simp [h3sex, hs]
      refine ⟨tailSteps (setColWith (setColWith (addBmiColStep t) "bmi" fillBmiRow)
          "bsa" (bsaRow bsaF)), ?_, fun hfalse => ?_, fun _ => ⟨?_, ?_, ?_⟩⟩
      · simp only [featureGroups, e1, e2, e3, e4]
      · exact absurd hfalse (by simp)
      · simp [tailSteps, bmiCategoryStep_hasCol, hasCol_setColWith, binStep_hasCol,
          addBmiColStep_hasCol, hc1]
      · simp [tailSteps, bmiCategoryStep_hasCol, hasCol_setColWith, binStep_hasCol,
          addBmiColStep_hasCol, hc3]
      · simp [tailSteps, bmiCategoryStep_hasCol, hasCol_setColWith, binStep_hasCol,
          addBmiColStep_hasCol, hc4, hs]
    | true =>
      have e3 : crclStep (setColWith (setColWith (addBmiColStep t) "bmi" fillBmiRow)
          "bsa" (bsaRow bsaF))
          = .ok (setColWith (setColWith (setColWith (addBmiColStep t) "bmi"
              fillBmiRow) "bsa" (bsaRow bsaF)) "est_crcl" crclRow) := by
        unfold crclStep
        simp [h3age, h3w, h3sex, hs]
      have h4h : (setColWith (setColWith (setColWith (addBmiColStep t) "bmi"
          fillBmiRow) "bsa" (bsaRow bsaF)) "est_crcl" crclRow).hasCol "height"
          = true := by
        rw [hasCol_setColWith, h3h]; rfl
      have h4sex : (setColWith (setColWith (setColWith (addBmiColStep t) "bmi"
          fillBmiRow) "bsa" (bsaRow bsaF)) "est_crcl" crclRow).hasCol "sex"
          = true := by
        rw [hasCol_setColWith, h3sex, hs]; rfl
      have e4 : ibwStep (setColWith (setColWith (setColWith (addBmiColStep t) "bmi"
          fillBmiRow) "bsa" (bsaRow bsaF)) "est_crcl" crclRow)
          = setColWith (setColWith (setColWith (setColWith (addBmiColStep t) "bmi"
              fillBmiRow) "bsa" (bsaRow bsaF)) "est_crcl" crclRow) "ibw" ibwRow := by
        unfold ibwStep
        simp [h4h, h4sex]
      refine ⟨tailSteps (setColWith (setColWith (setColWith (setColWith
          (addBmiColStep t) "bmi" fillBmiRow) "bsa" (bsaRow bsaF)) "est_crcl"
          crclRow) "ibw" ibwRow), ?_, fun hfalse => ?_, fun hfalse => ?_⟩
      · simp only [featureGroups, e1, e2, e3, e4]
      · exact absurd hfalse (by simp)
      · exact absurd hfalse (by simp)

/-- C2 witness: the concrete table with only `age` and `weight` columns
completes without error, and both absent guarded columns (`height` and
`sex`) cause their derived features to be absent from the output. -/
theorem C2_guarded_skips_witness :
    ∃ u, featureGroups (fun _ _ => 0) tableAgeWeight = Except.ok u ∧
      (tableAgeWeight.hasCol "height" = false →
        u.hasCol "bsa" = false ∧ u.hasCol "ibw" = false) ∧
      (tableAgeWeight.hasCol "sex" = false →
        u.hasCol "est_crcl" = false ∧ u.hasCol "ibw" = false ∧
          u.hasCol "is_female" = false) :=
  C2_guarded_skips (fun _ _ => 0) tableAgeWeight (by decide) (by decide)
    (by decide) (by decide) (by decide) (by decide)

/-- Reading back the column just written. -/
theorem rowGet_rowSet_self (r : Row) (c : String) (v : Cell) :
    rowGet (rowSet r c v) c = v := by
  simp [rowGet, rowSet]

/-- Writing one column leaves every other column's reading unchanged. -/
theorem rowGet_rowSet_ne (r : Row) (c : String) (v : Cell) (d : String)
    (h : d ≠ c) : rowGet (rowSet r c v) d = rowGet r d := by
  simp [rowGet, rowSet, h]

/-- The frame relation is reflexive. -/
theorem bmiKept_refl (r : Row) : BmiKept r r :=
  ⟨rfl, fun _ h => h, fun h _ => h⟩

/-- The frame relation composes. -/
theorem bmiKept_trans {r r2 r3 : Row} (h12 : BmiKept r r2) (h23 : BmiKept r2 r3) :
    BmiKept r r3 := by
  obtain ⟨hw, hs, hn⟩ := h12
  obtain ⟨hw2, hs2, hn2⟩ := h23
  refine ⟨hw2.trans hw, fun v h => hs2 v (hs v h), fun h hwm => ?_⟩
  exact hn2 (hn h hwm) (by rw [hw]; exact hwm)

/-- Writing any column other than `bmi` and `weight` is a frame step. -/
theorem bmiKept_rowSet (r : Row) (c : String) (v : Cell)
    (hcb : c ≠ "bmi") (hcw : c ≠ "weight") : BmiKept r (rowSet r c v) :=
  ⟨rowGet_rowSet_ne r c v "weight" (Ne.symm hcw),
   fun v2 h => by rw [rowGet_rowSet_ne r c v "bmi" (Ne.symm hcb)]; exact h,
   fun h _ => by rw [rowGet_rowSet_ne r c v "bmi" (Ne.symm hcb)]; exact h⟩

/-- The BMI fill itself is a frame step: a present `bmi` falls into the
mask's else-branch and is kept, and a missing `bmi` with missing
`weight` fails the mask and stays missing. -/
theorem bmiKept_fill (r : Row) : BmiKept r (rowSet r "bmi" (fillBmiRow r)) := by
  refine ⟨rowGet_rowSet_ne r "bmi" _ "weight" (by decide), ?_, ?_⟩
  · intro v hv
    rw [rowGet_rowSet_self]
    unfold fillBmiRow
    simp [hv]
  · intro hbn hwn
    rw [rowGet_rowSet_self]
    unfold fillBmiRow
    simp [hbn, hwn]

/-- The table-level frame relation is reflexive. -/
theorem keptTable_refl (t : DTable) : KeptTable t t := by
  refine ⟨rfl, fun i r r2 h1 h2 => ?_⟩
  rw [h1] at h2
  injection h2 with h
  exact h ▸ bmiKept_refl r

/-- The table-level frame relation composes. -/
theorem keptTable_trans {t u w : DTable} (h1 : KeptTable t u) (h2 : KeptTable u w) :
    KeptTable t w := by
  refine ⟨h2.1.trans h1.1, fun i r r3 hg1 hg3 => ?_⟩
  cases hg2 : u.rows.get? i with
  | none =>
      rw [List.get?_eq_none] at hg2
      have hlt : i < t.rows.length := by
        by_contra hge
        rw [List.get?_eq_none.mpr (Nat.le_of_not_lt hge)] at hg1
        exact Option.noConfusion hg1
      rw [h1.1] at hg2
      exact absurd hg2 (Nat.not_le_of_lt hlt)
  | some r2 => exact bmiKept_trans (h1.2 i r r2 hg1 hg2) (h2.2 i r2 r3 hg2 hg3)

/-- A whole-column assignment to a column other than `bmi` and `weight`
is a table-level frame step. -/
theorem keptTable_setColWith (t : DTable) (c : String) (f : Row → Cell)
    (hcb : c ≠ "bmi") (hcw : c ≠ "weight") : KeptTable t (setColWith t c f) := by
  refine ⟨by simp [setColWith], fun i r r2 h1 h2 => ?_⟩
  simp only [setColWith, List.get?_map, h1, Option.map_some] at h2
  injection h2 with h
  exact h ▸ bmiKept_rowSet r c (f r) hcb hcw

/-- The BMI fill assignment is a table-level frame step. -/
theorem keptTable_fill (t : DTable) : KeptTable t (setColWith t "bmi" fillBmiRow) := by
  refine ⟨by simp [setColWith], fun i r r2 h1 h2 => ?_⟩
  simp only [setColWith, List.get?_map, h1, Option.map_some] at h2
  injection h2 with h
  exact h ▸ bmiKept_fill r

/-- When the `bmi` column already exists, section 3a changes nothing. -/
theorem addBmiColStep_of_present (t : DTable) (h : t.hasCol "bmi" = true) :
    addBmiColStep t = t := by
  unfold addBmiColStep
  simp [h]

/-- Section 3a's BMI fill is a frame step whenever it completes. -/
theorem fillBmiStep_kept (t u : DTable) (hok : fillBmiStep t = Except.ok u) :
    KeptTable t u := by
  unfold fillBmiStep at hok
  split at hok
  · split at hok
    · exact absurd hok (by simp)
    · split at hok
      · exact absurd hok (by simp)
      · injection hok with h
        exact h ▸ keptTable_fill t
  · injection hok with h
    exact h ▸ keptTable_refl t

/-- The BSA block is a frame step whenever it completes. -/
theorem bsaStep_kept (bsaF : ℚ → ℚ → ℚ) (t u : DTable)
    (hok : bsaStep bsaF t = Except.ok u) : KeptTable t u := by
  unfold bsaStep at hok
  split at hok
  · split at hok
    · exact absurd hok (by simp)
    · injection hok with h
      exact h ▸ keptTable_setColWith t "bsa" _ (by decide) (by decide)
  · injection hok with h
    exact h ▸ keptTable_refl t

/-- The CrCl block is a frame step whenever it completes. -/
theorem crclStep_kept (t u : DTable) (hok : crclStep t = Except.ok u) :
    KeptTable t u := by
  unfold crclStep at hok
  split at hok
  · exact absurd hok (by simp)
  · split at hok
    · exact absurd hok (by simp)
    · split at hok
      · injection hok with h
        exact h ▸ keptTable_setColWith t "est_crcl" _ (by decide) (by decide)
      · injection hok with h
        exact h ▸ keptTable_refl t

/-- The IBW block is a frame step. -/
theorem ibwStep_kept (t : DTable) : KeptTable t (ibwStep t) := by
  unfold ibwStep
  split
  · exact keptTable_setColWith t "ibw" _ (by decide) (by decide)
  · exact keptTable_refl t

/-- A binary-encoding block writing neither `bmi` nor `weight` is a
frame step. -/
theorem binStep_kept (t : DTable) (src dst : String) (pos : List String)
    (hcb : dst ≠ "bmi") (hcw : dst ≠ "weight") :
    KeptTable t (binStep t src dst pos) := by
  unfold binStep
  split
  · exact keptTable_setColWith t dst _ hcb hcw
  · exact keptTable_refl t

/-- The categorical block 3g is a frame step. -/
theorem bmiCategoryStep_kept (t : DTable) : KeptTable t (bmiCategoryStep t) := by
  unfold bmiCategoryStep
  split
  · exact keptTable_setColWith t "bmi_category" _ (by decide) (by decide)
  · exact keptTable_refl t

/-- The tail of the pipeline (binary encodings and both categoricals) is
a frame step. -/
theorem tailSteps_kept (t : DTable) : KeptTable t (tailSteps t) := by
  unfold tailSteps
  refine keptTable_trans (binStep_kept t "smoking" "is_smoker" _ (by decide) (by decide))
    (keptTable_trans (binStep_kept _ "healthy" "is_healthy" _ (by decide) (by decide))
      (keptTable_trans (binStep_kept _ "oral contraceptives" "on_oc" _ (by decide) (by decide))
        (keptTable_trans (binStep_kept _ "sex" "is_female" _ (by decide) (by decide))
          (keptTable_trans
            (keptTable_setColWith _ "age_category" ageCatRow (by decide) (by decide))
            (bmiCategoryStep_kept _)))))

/-- C9: the feature-engineering transform never overwrites an existing
`bmi` value — row by row, a present `bmi` cell of the input table is
unchanged in the output, and the formula is applied only where `bmi` is
missing and both `weight` and `height` are present: in particular a row
with missing `bmi` and missing `weight` still has a missing `bmi`
afterwards. -/
theorem C9_bmi_never_overwritten (bsaF : ℚ → ℚ → ℚ) (t u : DTable)
    (hok : featureGroups bsaF t = Except.ok u) (hbmi : t.hasCol "bmi" = true) :
    ∀ i r r2, t.rows.get? i = some r → u.rows.get? i = some r2 →
      (∀ v : Val, rowGet r "bmi" = some v → rowGet r2 "bmi" = some v) ∧
      (rowGet r "bmi" = none → (rowGet r "weight").isSome = false →
        rowGet r2 "bmi" = none) := by
  have hkept : KeptTable t u := by
    unfold featureGroups at hok
    split at hok
    · exact absurd hok (by simp)
    · next t2 h1 =>
        split at hok
        · exact absurd hok (by simp)
        · next t3 h2 =>
            split at hok
            · exact absurd hok (by simp)
            · next t4 h3 =>
                injection hok with h
                rw [addBmiColStep_of_present t hbmi] at h1
                exact keptTable_trans (fillBmiStep_kept t t2 h1)
                  (keptTable_trans (bsaStep_kept bsaF t2 t3 h2)
                    (keptTable_trans (crclStep_kept t3 t4 h3)
                      (keptTable_trans (ibwStep_kept t4)
                        (h ▸ tailSteps_kept (ibwStep t4)))))
  intro i r r2 h1 h2
  exact ⟨(hkept.2 i r r2 h1 h2).2.1, (hkept.2 i r r2 h1 h2).2.2⟩

/-- C9 witness: on the concrete table whose single row has `bmi = 22`
and a missing `weight`, the transformed row still reads `bmi = 22`. -/
theorem C9_bmi_never_overwritten_witness :
    rowGet (rowSet (rowSet rowWithBmi "age_category" (ageCatRow rowWithBmi))
      "bmi_category"
      (bmiCatRow (rowSet rowWithBmi "age_category" (ageCatRow rowWithBmi)))) "bmi"
      = some (Val.num 22) :=
  (C9_bmi_never_overwritten (fun _ _ => 0) tableWithBmi
      (bmiCategoryStep (setColWith tableWithBmi "age_category" ageCatRow))
      rfl (by decide) 0 rowWithBmi _ rfl rfl).1 (Val.num 22) rfl
